import Mathlib

/-!
A verification development for the broadcast hub of the `signal` repository
(`src/broadcast/broadcast_manager.ts` and `src/broadcast/client.ts`).

The TypeScript source is shallowly embedded: JavaScript `Map`s and `Set`s
become association lists / duplicate-free lists that keep insertion order
(`Map.set` replaces in place or appends, `Set.add` appends when absent,
deletion removes the key's entries), the channel-pattern regexes produced by
`parsePattern` become token lists matched by a greedy backtracking matcher
with the exact semantics of the produced anchored regex, and external
callbacks (authorization, message handlers, transports) become explicit
oracles: an authorization callback is a function into an outcome type whose
`exn` constructor stands for a throw/rejection that the source `catch`es, and
a transport write failure is an oracle `fails : String → Bool` consulted
where the source wraps `ws.send` in `try/catch`.
-/

/-! ## Association lists and set-lists (JS `Map` / `Set` semantics) -/

/-- `Map.get k`: the value at the first entry with key `k`. -/
def alookup (k : String) : List (String × α) → Option α
  | [] => none
  | (k', v) :: rest => if k' = k then some v else alookup k rest

/-- `Map.set k v`: replace the first entry with key `k` in place, else append
(JS `Map` keeps insertion order). -/
def mset (k : String) (v : α) : List (String × α) → List (String × α)
  | [] => [(k, v)]
  | (k', v') :: rest => if k' = k then (k, v) :: rest else (k', v') :: mset k v rest

/-- `Map.delete k`. -/
def mdel (k : String) : List (String × α) → List (String × α)
  | [] => []
  | (k', v') :: rest => if k' = k then mdel k rest else (k', v') :: mdel k rest

/-- `Set.add x`: append when absent (JS `Set` keeps insertion order). -/
def sadd (x : String) (s : List String) : List String :=
  if x ∈ s then s else s ++ [x]

/-- `Set.delete x`. -/
def sdel (x : String) : List String → List String
  | [] => []
  | y :: rest => if y = x then sdel x rest else y :: sdel x rest

theorem alookup_mset (k q : String) (v : α) (m : List (String × α)) :
    alookup q (mset k v m) = if k = q then some v else alookup q m := by
  induction m with
  | nil =>
    by_cases h : k = q <;> simp [mset, alookup, h]
  | cons p rest ih =>
    obtain ⟨k', v'⟩ := p
    by_cases hk : k' = k
    · subst hk
      by_cases hq : k' = q <;> simp [mset, alookup, hq]
    · by_cases hq : k' = q
      · subst hq
        have hkq : ¬ (k = k') := fun h => hk h.symm
        simp [mset, alookup, hk, hkq]
      · simp [mset, alookup, hk, hq, ih]

theorem alookup_mdel (k q : String) (m : List (String × α)) :
    alookup q (mdel k m) = if k = q then none else alookup q m := by
  induction m with
  | nil => by_cases h : k = q <;> simp [mdel, alookup, h]
  | cons p rest ih =>
    obtain ⟨k', v'⟩ := p
    by_cases hk : k' = k
    · subst hk
      by_cases hq : k' = q
      · subst hq; simpa [mdel, alookup] using ih
      · simp [mdel, alookup, hq, ih]
    · by_cases hq : k' = q
      · subst hq
        have hkq : ¬ (k = k') := fun h => hk h.symm
        simp [mdel, alookup, hk, hkq]
      · simp [mdel, alookup, hk, hq, ih]

theorem mem_mset (p : String × α) (k : String) (v : α) (m : List (String × α)) :
    p ∈ mset k v m → p = (k, v) ∨ p ∈ m := by
  induction m with
  | nil => intro h; simp [mset] at h; exact Or.inl h
  | cons q rest ih =>
    obtain ⟨k', v'⟩ := q
    by_cases hk : k' = k
    · subst hk
      intro h
      rcases (by simpa [mset] using h) with h | h
      · exact Or.inl h
      · exact Or.inr (List.mem_cons_of_mem _ h)
    · intro h
      rcases (by simpa [mset, hk] using h) with h | h
      · exact Or.inr (by simp [h])
      · rcases ih h with h' | h'
        · exact Or.inl h'
        · exact Or.inr (List.mem_cons_of_mem _ h')

theorem mem_mdel (p : String × α) (k : String) (m : List (String × α)) :
    p ∈ mdel k m → p ∈ m := by
  induction m with
  | nil => intro h; simp [mdel] at h
  | cons q rest ih =>
    obtain ⟨k', v'⟩ := q
    by_cases hk : k' = k
    · intro h
      exact List.mem_cons_of_mem _ (ih (by simpa [mdel, hk] using h))
    · intro h
      rcases (by simpa [mdel, hk] using h) with h | h
      · simp [h]
      · exact List.mem_cons_of_mem _ (ih h)

theorem mem_sadd (x y : String) (s : List String) :
    x ∈ sadd y s ↔ x = y ∨ x ∈ s := by
  by_cases h : y ∈ s
  · simp only [sadd, if_pos h]
    constructor
    · exact Or.inr
    · rintro (rfl | hx)
      · exact h
      · exact hx
  · simp [sadd, if_neg h, or_comm]

theorem mem_sdel (x y : String) (s : List String) :
    x ∈ sdel y s ↔ x ∈ s ∧ x ≠ y := by
  induction s with
  | nil => simp [sdel]
  | cons z rest ih =>
    simp only [sdel]
    by_cases hz : z = y
    · rw [if_pos hz]
      subst hz
      rw [ih]
      constructor
      · rintro ⟨hx, hne⟩
        exact ⟨List.mem_cons_of_mem _ hx, hne⟩
      · rintro ⟨hx, hne⟩
        rcases List.mem_cons.mp hx with rfl | hx
        · exact absurd rfl hne
        · exact ⟨hx, hne⟩
    · rw [if_neg hz]
      constructor
      · intro hx
        rcases List.mem_cons.mp hx with rfl | hx
        · exact ⟨List.mem_cons_self _ _, hz⟩
        · obtain ⟨h1, h2⟩ := ih.mp hx
          exact ⟨List.mem_cons_of_mem _ h1, h2⟩
      · rintro ⟨hx, hne⟩
        rcases List.mem_cons.mp hx with rfl | hx
        · exact List.mem_cons_self _ _
        · exact List.mem_cons_of_mem _ (ih.mpr ⟨hx, hne⟩)

theorem sadd_ne_nil (x : String) (s : List String) : sadd x s ≠ [] := by
  by_cases h : x ∈ s
  · simp only [sadd, if_pos h]
    intro hnil
    subst hnil
    simp at h
  · simp [sadd, if_neg h]

theorem sdel_eq_nil (x : String) (s : List String) :
    sdel x s = [] → ∀ y ∈ s, y = x := by
  intro h y hy
  by_contra hne
  have : y ∈ sdel x s := (mem_sdel y x s).mpr ⟨hy, hne⟩
  simp [h] at this

theorem sdel_sdel (x : String) (s : List String) :
    sdel x (sdel x s) = sdel x s := by
  induction s with
  | nil => simp [sdel]
  | cons y rest ih =>
    by_cases hy : y = x
    · simp [sdel, hy, ih]
    · simp [sdel, hy, ih]

/-! ## Pattern matcher (`parsePattern`, the compiled regex, `extractParams`)

`parsePattern` in the source builds a regex string by replacing the first
occurrence of `/\*(\w+)` with `/(.+)` (pushing the wildcard's name) and then
every occurrence of `:(\w+)` with `([^/]+)` (pushing each name in text order),
and compiles `^…$`.  The embedding produces the regex as a token list:
`lit c` (a literal character), `capSeg` (the group `([^/]+)`) and `capRest`
(the group `(.+)`).  `tmatch` gives the produced anchored regex its exact
semantics for this fragment: greedy one-or-more character classes with
backtracking, captures in group order. -/

/-- JS `\w`: ASCII letters, digits and underscore. -/
def isWordChar (c : Char) : Bool :=
  c.isAlphanum || c = '_'

inductive RTok where
  | lit (c : Char)
  | capSeg
  | capRest
deriving DecidableEq, Repr

/-- Match `/\*(\w+)` at the head of the list: the name and the rest. -/
def wildAt : List Char → Option (List Char × List Char)
  | '/' :: '*' :: rest =>
    let name := rest.takeWhile isWordChar
    if name = [] then none else some (name, rest.dropWhile isWordChar)
  | _ => none

/-- Leftmost occurrence of `/\*(\w+)`: `(before, name, after)`. -/
def findWild : List Char → Option (List Char × List Char × List Char)
  | [] => none
  | x :: xs =>
    match wildAt (x :: xs) with
    | some (name, rest) => some ([], name, rest)
    | none => (findWild xs).map (fun r => (x :: r.1, r.2.1, r.2.2))

/-- The global replace of `:(\w+)` by the group `([^/]+)`: the token list and
the names pushed, in text order.  The fuel (first argument) only serves
structural recursion; callers pass the list's length, which suffices because
each step consumes at least one character. -/
def colonTokensF : Nat → List Char → List RTok × List (List Char)
  | 0, _ => ([], [])
  | _ + 1, [] => ([], [])
  | fuel + 1, ':' :: rest =>
    let name := rest.takeWhile isWordChar
    if name = [] then
      let r := colonTokensF fuel rest
      (RTok.lit ':' :: r.1, r.2)
    else
      let r := colonTokensF fuel (rest.dropWhile isWordChar)
      (RTok.capSeg :: r.1, name :: r.2)
  | fuel + 1, c :: rest =>
    let r := colonTokensF fuel rest
    (RTok.lit c :: r.1, r.2)

def colonTokens (cs : List Char) : List RTok × List (List Char) :=
  colonTokensF cs.length cs

/-- `parsePattern`: the compiled regex (as tokens) and the ordered parameter
names.  The wildcard replace runs first, so the wildcard's name is pushed
before every `:name`, while its capture group sits at its textual position. -/
def parsePattern (pattern : String) : List RTok × List String :=
  match findWild pattern.data with
  | none =>
    let r := colonTokens pattern.data
    (r.1, r.2.map List.asString)
  | some (before, name, after) =>
    let rb := colonTokens before
    let ra := colonTokens after
    (rb.1 ++ [RTok.lit '/', RTok.capRest] ++ ra.1,
     name.asString :: (rb.2 ++ ra.2).map List.asString)

/-- The anchored regex `^…$` applied to a whole string: greedy matching with
backtracking, exactly the JS semantics of the produced expression (a
concatenation of literals and the greedy groups `([^/]+)` and `(.+)`).
Returns the list of captured groups in group order. -/
def tmatch : List RTok → List Char → Option (List (List Char))
  | [], [] => some []
  | [], _ :: _ => none
  | RTok.lit _ :: _, [] => none
  | RTok.lit c :: ts, x :: xs => if x = c then tmatch ts xs else none
  | RTok.capSeg :: ts, xs =>
    let maxLen := (xs.takeWhile (fun c => c ≠ '/')).length
    (List.range maxLen).findSome? (fun i =>
      let j := maxLen - i
      (tmatch ts (xs.drop j)).map (fun caps => xs.take j :: caps))
  | RTok.capRest :: ts, xs =>
    (List.range xs.length).findSome? (fun i =>
      let j := xs.length - i
      (tmatch ts (xs.drop j)).map (fun caps => xs.take j :: caps))

/-- `extractParams`: `params[names[i]] = match[i + 1]` — positional zip of the
parameter names with the captured groups, later assignments overwriting
(JS object key semantics). -/
def extractParams (names : List String) (caps : List (List Char)) :
    List (String × String) :=
  (names.zip (caps.map List.asString)).foldl (fun acc p => mset p.1 p.2 acc) []

example : parsePattern "chats/:id" =
    ([RTok.lit 'c', RTok.lit 'h', RTok.lit 'a', RTok.lit 't', RTok.lit 's',
      RTok.lit '/', RTok.capSeg], ["id"]) := by decide

example : (parsePattern "chat/:id/*rest").2 = ["rest", "id"] := by decide

example : tmatch (parsePattern "chats/:id").1 "chats/42".data =
    some ["42".data] := by decide

/-! ## Server data model (`BroadcastManager`)

The hub's mutable singleton state (`_clients`, `_subscribers`) becomes the
`Hub` structure; the registry `_channels` is a separate value threaded into
the handlers, because registrations are process-startup data.  A request
context (the `Context` the middleware pipeline produces) is opaque except
for the `clientId` property `handleMessage` writes on it; the `base` field
stands for everything else in it. -/

/-- The request context produced (asynchronously) for a connection by the
external middleware pipeline.  `base` is its opaque content; `clientId` is
the property `handleMessage` assigns before invoking a handler. -/
structure Ctx where
  base : String
  clientId : Option String := none
deriving DecidableEq, Repr

/-- The outcome of an authorization callback: `allow`/`deny` for a returned
boolean, `exn` for a throw or rejected promise (which the source `catch`es). -/
inductive AuthOutcome where
  | allow
  | deny
  | exn
deriving DecidableEq, Repr

/-- A registered channel definition: pattern, compiled matcher (tokens and
parameter names as `parsePattern` produces them), optional authorization
callback, and the event names having a registered message handler (the keys
of the `messages` record). -/
structure ChannelDef where
  pattern : String
  tokens : List RTok
  paramNames : List String
  authorize : Option (Ctx → List (String × String) → AuthOutcome) := none
  messages : List String := []

/-- A live connection's record (`ClientConnection` without the transport
handle — transports are addressed by client id, with write failures an
oracle). -/
structure ClientConnection where
  channels : List String
  ctx : Ctx
deriving DecidableEq, Repr

/-- The hub's state: `_clients` and `_subscribers`. -/
structure Hub where
  clients : List (String × ClientConnection)
  subscribers : List (String × List String)

def Hub.empty : Hub := ⟨[], []⟩

/-- An outbound wire envelope. -/
inductive Envelope where
  | welcome (id : String)
  | ok (c : String)
  | err (c r : String)
  | msg (c e d : String)
  | ping
deriving DecidableEq, Repr

/-- `subscriberCount`: `_subscribers.get(channel)?.size ?? 0`. -/
def subscriberCount (h : Hub) (channel : String) : Nat :=
  ((alookup channel h.subscribers).getD []).length

/-- The subscriber set of a channel (empty when the channel has no entry). -/
def subsOf (h : Hub) (channel : String) : List String :=
  (alookup channel h.subscribers).getD []

/-- The channel set of a connection (empty when the connection is gone). -/
def chansOf (h : Hub) (cid : String) : List String :=
  ((alookup cid h.clients).map ClientConnection.channels).getD []

/-- `matchChannel`: iterate `_channels` in registration order, return the
first definition whose regex matches, with the extracted parameters. -/
def matchChannel (defs : List ChannelDef) (channelName : String) :
    Option (ChannelDef × List (String × String)) :=
  match defs with
  | [] => none
  | d :: rest =>
    match tmatch d.tokens channelName.data with
    | some caps => some (d, extractParams d.paramNames caps)
    | none => matchChannel rest channelName

/-- The `open` handler: fresh id, empty channel set, `welcome{id}` reply.
(The context is the one its `ctxReady` promise will resolve to.) -/
def openConn (h : Hub) (cid : String) (ctx : Ctx) : Hub × List Envelope :=
  ({ h with clients := mset cid ⟨[], ctx⟩ h.clients }, [Envelope.welcome cid])

/-- `handleSubscribe`.  Returns the new hub state, the envelopes sent to the
subscribing connection, and whether the authorization callback was invoked.
Exceptions from the callback are the `AuthOutcome.exn` outcome — the source
`catch`es them, so the handler always returns (nothing propagates). -/
def handleSubscribe (defs : List ChannelDef) (h : Hub) (cid channelName : String) :
    Hub × List Envelope × Bool :=
  match alookup cid h.clients with
  | none => (h, [], false)
  | some c =>
    if channelName = "" then (h, [], false)
    else if channelName ∈ c.channels then (h, [Envelope.ok channelName], false)
    else
      match matchChannel defs channelName with
      | none => (h, [Envelope.err channelName "unknown channel"], false)
      | some (d, params) =>
        match d.authorize with
        | some f =>
          match f c.ctx params with
          | AuthOutcome.deny => (h, [Envelope.err channelName "unauthorized"], true)
          | AuthOutcome.exn => (h, [Envelope.err channelName "authorization failed"], true)
          | AuthOutcome.allow =>
            ({ clients := mset cid { c with channels := sadd channelName c.channels } h.clients,
               subscribers := mset channelName
                 (sadd cid ((alookup channelName h.subscribers).getD [])) h.subscribers },
             [Envelope.ok channelName], true)
        | none =>
          ({ clients := mset cid { c with channels := sadd channelName c.channels } h.clients,
             subscribers := mset channelName
               (sadd cid ((alookup channelName h.subscribers).getD [])) h.subscribers },
           [Envelope.ok channelName], false)

/-- Remove a connection from one channel's subscriber entry, deleting the
entry when its set becomes empty (the common tail of `handleUnsubscribe` and
`removeClient`). -/
def unsubIndex (channelName cid : String) (m : List (String × List String)) :
    List (String × List String) :=
  match alookup channelName m with
  | none => m
  | some s =>
    let s' := sdel cid s
    if s' = [] then mdel channelName m else mset channelName s' m

/-- `handleUnsubscribe`: unconditionally remove the channel from the
connection's set and the connection from the channel's entry; no reply. -/
def handleUnsubscribe (h : Hub) (cid channelName : String) : Hub :=
  match alookup cid h.clients with
  | none => h
  | some c =>
    if channelName = "" then h
    else
      { clients := mset cid { c with channels := sdel channelName c.channels } h.clients,
        subscribers := unsubIndex channelName cid h.subscribers }

/-- The observable invocation of a registered message handler: the context it
receives (with `clientId` assigned), the extracted parameters, the event and
the payload. -/
structure Invocation where
  ctx : Ctx
  params : List (String × String)
  event : String
  data : String
deriving DecidableEq, Repr

/-- `handleMessage` (server side): dispatch an inbound `msg{channel, event,
data}` to the matched definition's handler for `event`, after setting
`ctx.clientId` to the sender's id.  `none` when the message is dropped
(empty fields, not subscribed, no match, no handler). -/
def handleMessage (defs : List ChannelDef) (h : Hub) (cid channelName event data : String) :
    Option Invocation :=
  match alookup cid h.clients with
  | none => none
  | some c =>
    if channelName = "" ∨ event = "" then none
    else if channelName ∉ c.channels then none
    else
      match matchChannel defs channelName with
      | none => none
      | some (d, params) =>
        if event ∈ d.messages then
          some { ctx := { c.ctx with clientId := some cid }, params := params,
                 event := event, data := data }
        else none

/-- The delivery loop of `broadcastToChannel`: skip the excluded id, skip ids
with no live connection, attempt the write and swallow a failure
(`fails cid = true` stands for `ws.send` throwing).  Returns the writes that
reached a transport. -/
def sendLoop (h : Hub) (fails : String → Bool) (env : Envelope) (excluded : Option String) :
    List String → List (String × Envelope)
  | [] => []
  | cid :: rest =>
    if excluded = some cid then sendLoop h fails env excluded rest
    else
      match alookup cid h.clients with
      | none => sendLoop h fails env excluded rest
      | some _ =>
        if fails cid then sendLoop h fails env excluded rest
        else (cid, env) :: sendLoop h fails env excluded rest

/-- `broadcastToChannel` (the terminal `send` of `to(channel).except(x)`):
no-op when the channel has no (or an empty) subscriber entry, else one
`msg{channel, event, data}` envelope per subscriber except the excluded id,
per-subscriber write failures swallowed.  Total — nothing surfaces to the
caller. -/
def broadcastToChannel (h : Hub) (fails : String → Bool)
    (channel event data : String) (excluded : Option String) :
    List (String × Envelope) :=
  match alookup channel h.subscribers with
  | none => []
  | some subs =>
    if subs.isEmpty then []
    else sendLoop h fails (Envelope.msg channel event data) excluded subs

/-- `removeClient` (the `close` handler): unwind every channel the connection
subscribed to, then discard its record. -/
def removeClient (h : Hub) (cid : String) : Hub :=
  match alookup cid h.clients with
  | none => h
  | some c =>
    { clients := mdel cid h.clients,
      subscribers := c.channels.foldl (fun m ch => unsubIndex ch cid m) h.subscribers }

/-! ## C2 — parameter extraction, C3 — first-match resolution -/

/-- What `BroadcastManager.channel("chat/:id/*rest")` registers (a pattern
with a named parameter followed by a trailing wildcard). -/
def chatWildDef : ChannelDef :=
  { pattern := "chat/:id/*rest"
    tokens := (parsePattern "chat/:id/*rest").1
    paramNames := (parsePattern "chat/:id/*rest").2 }

/-- C2: the spec's claim fails on the code.  For the registered pattern
`chat/:id/*rest` and the accepted channel name `chat/7/a/b`, the claim
requires `id ↦ "7"` (the one non-`/` segment matched at `:id`'s position)
and `rest ↦ "a/b"` (the remainder matched by `*rest`).  The code pushes the
wildcard's name before the `:name` names while the capture groups stay in
textual order, so the positional zip binds `rest ↦ "7"` and `id ↦ "a/b"` —
the bindings are swapped whenever a pattern has both a named parameter and a
wildcard. -/
theorem c2_param_extraction_swapped :
    (matchChannel [chatWildDef] "chat/7/a/b").map (fun r => r.2) =
      some [("rest", "7"), ("id", "a/b")] ∧
    alookup "id" [("rest", "7"), ("id", "a/b")] = some "a/b" ∧
    alookup "rest" [("rest", "7"), ("id", "a/b")] = some "7" := by
  refine ⟨?_, by decide, by decide⟩
  decide

/-- The Channel Registry's `resolve` as the spec words it: the first-registered
definition whose matcher accepts the name, with the parameters extracted from
its captures; no-match when none accepts. -/
def resolveSpec (defs : List ChannelDef) (n : String) :
    Option (ChannelDef × List (String × String)) :=
  (defs.find? (fun d => (tmatch d.tokens n.data).isSome)).map
    (fun d => (d, extractParams d.paramNames ((tmatch d.tokens n.data).getD [])))

/-- C3: `matchChannel` iterates the registered definitions in registration
order and returns the first whose matcher accepts the name (with its
extracted parameters), or no-match when none accepts.  It is a pure function
of the registry and the name — deterministic, touching no hub state. -/
theorem c3_matchChannel_first_match (defs : List ChannelDef) (n : String) :
    matchChannel defs n = resolveSpec defs n ∧
    (matchChannel defs n).isNone
      = defs.all (fun d => !(tmatch d.tokens n.data).isSome) := by
  induction defs with
  | nil => simp [matchChannel, resolveSpec]
  | cons d rest ih =>
    obtain ⟨ih1, ih2⟩ := ih
    cases htm : tmatch d.tokens n.data with
    | none =>
      have hfind : (d :: rest).find? (fun d => (tmatch d.tokens n.data).isSome)
          = rest.find? (fun d => (tmatch d.tokens n.data).isSome) :=
        List.find?_cons_of_neg _ (by simp [htm])
      constructor
      · rw [show matchChannel (d :: rest) n = matchChannel rest n by
          simp [matchChannel, htm]]
        rw [ih1]
        simp [resolveSpec, hfind]
      · rw [show matchChannel (d :: rest) n = matchChannel rest n by
          simp [matchChannel, htm]]
        simp [htm, ih2]
    | some caps =>
      have hfind : (d :: rest).find? (fun d => (tmatch d.tokens n.data).isSome)
          = some d :=
        List.find?_cons_of_pos _ (by simp [htm])
      constructor
      · simp [matchChannel, htm, resolveSpec, hfind]
      · simp [matchChannel, htm]

/-! ## C1 — the Subscription Index invariant -/

/-- The effect of `unsubIndex` on one entry, as an `Option`-level function:
delete `cid` from the set, drop the entry when that empties it. -/
def chop (cid : String) : Option (List String) → Option (List String)
  | none => none
  | some s =>
    let s' := sdel cid s
    if s' = [] then none else some s'

theorem chop_chop (cid : String) (o : Option (List String)) :
    chop cid (chop cid o) = chop cid o := by
  cases o with
  | none => rfl
  | some s =>
    by_cases hs : sdel cid s = []
    · simp [chop, hs]
    · simp [chop, hs, sdel_sdel]

theorem mem_chop (x cid : String) (o : Option (List String)) :
    x ∈ (chop cid o).getD [] ↔ x ∈ o.getD [] ∧ x ≠ cid := by
  cases o with
  | none => simp [chop]
  | some s =>
    by_cases hs : sdel cid s = []
    · simp only [chop, hs, if_pos rfl, Option.getD_some]
      constructor
      · intro hx; simp at hx
      · rintro ⟨hx, hne⟩
        exact absurd (sdel_eq_nil cid s hs x hx) hne
    · simp only [chop, hs, if_neg hs, Option.getD_some]
      exact mem_sdel x cid s

theorem alookup_unsubIndex (ch cid q : String) (m : List (String × List String)) :
    alookup q (unsubIndex ch cid m)
      = if ch = q then chop cid (alookup ch m) else alookup q m := by
  unfold unsubIndex
  cases hm : alookup ch m with
  | none =>
    by_cases hq : ch = q
    · subst hq; simp [chop, hm]
    · simp [hq]
  | some s =>
    by_cases hs : sdel cid s = []
    · by_cases hq : ch = q
      · subst hq; simp [hs, alookup_mdel, chop]
      · simp [hs, alookup_mdel, hq]
    · by_cases hq : ch = q
      · subst hq; simp [hs, alookup_mset, chop]
      · simp [hs, alookup_mset, hq]

theorem alookup_foldl_unsubIndex (cid q : String) (chs : List String)
    (m : List (String × List String)) :
    alookup q (chs.foldl (fun m ch => unsubIndex ch cid m) m)
      = if q ∈ chs then chop cid (alookup q m) else alookup q m := by
  induction chs generalizing m with
  | nil => simp
  | cons ch rest ih =>
    rw [List.foldl_cons, ih]
    by_cases hrest : q ∈ rest
    · by_cases hch : ch = q
      · subst hch
        simp [hrest, alookup_unsubIndex, chop_chop]
      · simp [hrest, alookup_unsubIndex, hch]
    · by_cases hch : ch = q
      · subst hch
        simp [hrest, alookup_unsubIndex]
      · have : q ∉ ch :: rest := by
          intro hmem
          rcases List.mem_cons.mp hmem with h | h
          · exact hch h.symm
          · exact hrest h
        simp [hrest, this, alookup_unsubIndex, hch]

theorem entries_unsubIndex (ch cid : String) (m : List (String × List String))
    (hm : ∀ p ∈ m, p.2 ≠ ([] : List String)) :
    ∀ p ∈ unsubIndex ch cid m, p.2 ≠ ([] : List String) := by
  unfold unsubIndex
  cases hc : alookup ch m with
  | none => exact hm
  | some s =>
    by_cases hs : sdel cid s = []
    · simp only [hs, if_pos rfl]
      intro p hp
      exact hm p (mem_mdel p ch m hp)
    · simp only [hs, if_neg hs]
      intro p hp
      rcases mem_mset p ch (sdel cid s) m hp with h | h
      · rw [h]; exact hs
      · exact hm p h

theorem entries_foldl_unsubIndex (cid : String) (chs : List String)
    (m : List (String × List String))
    (hm : ∀ p ∈ m, p.2 ≠ ([] : List String)) :
    ∀ p ∈ chs.foldl (fun m ch => unsubIndex ch cid m) m, p.2 ≠ ([] : List String) := by
  induction chs generalizing m with
  | nil => exact fun p hp => hm p hp
  | cons ch rest ih =>
    rw [List.foldl_cons]
    exact ih (unsubIndex ch cid m) (entries_unsubIndex ch cid m hm)

/-- The C1 invariant: a connection id appears in the index entry for channel
`C` exactly when `C` is in that connection's subscribed-channel set, and the
index holds no entry with an empty subscriber set. -/
def InvC1 (h : Hub) : Prop :=
  (∀ ch cid, cid ∈ subsOf h ch ↔ ch ∈ chansOf h cid) ∧
  (∀ p ∈ h.subscribers, p.2 ≠ ([] : List String))

theorem invC1_empty : InvC1 Hub.empty := by
  constructor
  · intro ch cid
    simp [subsOf, chansOf, Hub.empty, alookup]
  · intro p hp
    simp [Hub.empty] at hp

theorem invC1_openConn (h : Hub) (cid : String) (ctx : Ctx)
    (hfresh : alookup cid h.clients = none) (hinv : InvC1 h) :
    InvC1 (openConn h cid ctx).1 := by
  obtain ⟨hiff, hne⟩ := hinv
  constructor
  · intro ch cid'
    have hsub : subsOf (openConn h cid ctx).1 ch = subsOf h ch := rfl
    have hcl : chansOf (openConn h cid ctx).1 cid'
        = if cid = cid' then [] else chansOf h cid' := by
      simp only [chansOf, openConn, alookup_mset]
      by_cases hc : cid = cid' <;> simp [hc]
    rw [hsub, hcl]
    by_cases hc : cid = cid'
    · subst hc
      simp only [if_pos rfl]
      rw [hiff ch cid]
      simp [chansOf, hfresh]
    · rw [if_neg hc]
      exact hiff ch cid'
  · exact hne

theorem invC1_subscribe_core (h : Hub) (c : ClientConnection) (cid ch : String)
    (hc : alookup cid h.clients = some c) (hinv : InvC1 h) :
    InvC1 ⟨mset cid { c with channels := sadd ch c.channels } h.clients,
           mset ch (sadd cid ((alookup ch h.subscribers).getD [])) h.subscribers⟩ := by
  obtain ⟨hiff, hne⟩ := hinv
  constructor
  · intro ch' cid'
    have hsub : subsOf ⟨mset cid { c with channels := sadd ch c.channels } h.clients,
        mset ch (sadd cid ((alookup ch h.subscribers).getD [])) h.subscribers⟩ ch'
        = if ch = ch' then sadd cid (subsOf h ch) else subsOf h ch' := by
      simp only [subsOf, alookup_mset]
      by_cases e1 : ch = ch' <;> simp [e1]
    have hcl : chansOf ⟨mset cid { c with channels := sadd ch c.channels } h.clients,
        mset ch (sadd cid ((alookup ch h.subscribers).getD [])) h.subscribers⟩ cid'
        = if cid = cid' then sadd ch c.channels else chansOf h cid' := by
      simp only [chansOf, alookup_mset]
      by_cases e2 : cid = cid' <;> simp [e2]
    rw [hsub, hcl]
    have hch : chansOf h cid = c.channels := by simp [chansOf, hc]
    by_cases e1 : ch = ch' <;> by_cases e2 : cid = cid'
    · subst e1; subst e2
      simp [mem_sadd]
    · subst e1
      have e2' : cid' ≠ cid := fun h' => e2 h'.symm
      simp [mem_sadd, e2, e2', hiff ch cid']
    · subst e2
      have e1' : ch' ≠ ch := fun h' => e1 h'.symm
      simp [mem_sadd, e1, e1', hiff ch' cid, hch]
    · simp [e1, e2, hiff ch' cid']
  · intro p hp
    rcases mem_mset p ch (sadd cid ((alookup ch h.subscribers).getD [])) h.subscribers hp
      with h' | h'
    · rw [h']
      exact sadd_ne_nil cid _
    · exact hne p h'

theorem invC1_handleSubscribe (defs : List ChannelDef) (h : Hub) (cid ch : String)
    (hinv : InvC1 h) : InvC1 (handleSubscribe defs h cid ch).1 := by
  unfold handleSubscribe
  split
  · exact hinv
  · rename_i c hc
    repeat' split
    all_goals
      first
      | exact hinv
      | exact invC1_subscribe_core h c cid ch hc hinv

theorem invC1_unsubscribe_core (h : Hub) (c : ClientConnection) (cid ch : String)
    (hc : alookup cid h.clients = some c) (hinv : InvC1 h) :
    InvC1 ⟨mset cid { c with channels := sdel ch c.channels } h.clients,
           unsubIndex ch cid h.subscribers⟩ := by
  obtain ⟨hiff, hne⟩ := hinv
  constructor
  · intro ch' cid'
    have hsub : subsOf ⟨mset cid { c with channels := sdel ch c.channels } h.clients,
        unsubIndex ch cid h.subscribers⟩ ch'
        = ((if ch = ch' then chop cid (alookup ch h.subscribers)
            else alookup ch' h.subscribers)).getD [] := by
      simp only [subsOf, alookup_unsubIndex]
    have hcl : chansOf ⟨mset cid { c with channels := sdel ch c.channels } h.clients,
        unsubIndex ch cid h.subscribers⟩ cid'
        = if cid = cid' then sdel ch c.channels else chansOf h cid' := by
      simp only [chansOf, alookup_mset]
      by_cases e2 : cid = cid' <;> simp [e2]
    rw [hsub, hcl]
    have hch' : chansOf h cid = c.channels := by simp [chansOf, hc]
    have hsubs : ∀ x, (alookup x h.subscribers).getD [] = subsOf h x := fun _ => rfl
    by_cases e1 : ch = ch' <;> by_cases e2 : cid = cid'
    · subst e1; subst e2
      simp [mem_chop, mem_sdel]
    · subst e1
      have e2' : cid' ≠ cid := fun h' => e2 h'.symm
      simp [mem_chop, e2, e2', hsubs, hiff ch cid']
    · subst e2
      have e1' : ch' ≠ ch := fun h' => e1 h'.symm
      simp [mem_sdel, e1, e1', hsubs, hiff ch' cid, hch']
    · simp [e1, e2, hsubs, hiff ch' cid']
  · exact entries_unsubIndex ch cid h.subscribers hne

theorem invC1_handleUnsubscribe (h : Hub) (cid ch : String) (hinv : InvC1 h) :
    InvC1 (handleUnsubscribe h cid ch) := by
  unfold handleUnsubscribe
  split
  · exact hinv
  · rename_i c hc
    split
    · exact hinv
    · exact invC1_unsubscribe_core h c cid ch hc hinv

theorem invC1_remove_core (h : Hub) (c : ClientConnection) (cid : String)
    (hc : alookup cid h.clients = some c) (hinv : InvC1 h) :
    InvC1 ⟨mdel cid h.clients,
           c.channels.foldl (fun m ch => unsubIndex ch cid m) h.subscribers⟩ := by
  obtain ⟨hiff, hne⟩ := hinv
  constructor
  · intro ch' cid'
    have hsub : subsOf ⟨mdel cid h.clients,
        c.channels.foldl (fun m ch => unsubIndex ch cid m) h.subscribers⟩ ch'
        = ((if ch' ∈ c.channels then chop cid (alookup ch' h.subscribers)
            else alookup ch' h.subscribers)).getD [] := by
      simp only [subsOf, alookup_foldl_unsubIndex]
    have hcl : chansOf ⟨mdel cid h.clients,
        c.channels.foldl (fun m ch => unsubIndex ch cid m) h.subscribers⟩ cid'
        = if cid = cid' then [] else chansOf h cid' := by
      simp only [chansOf, alookup_mdel]
      by_cases e2 : cid = cid' <;> simp [e2]
    rw [hsub, hcl]
    have hch : chansOf h cid = c.channels := by simp [chansOf, hc]
    have hsubs : ∀ x, (alookup x h.subscribers).getD [] = subsOf h x := fun _ => rfl
    by_cases e2 : cid = cid'
    · subst e2
      by_cases e1 : ch' ∈ c.channels
      · simp [e1, mem_chop]
      · have hn : cid ∉ subsOf h ch' := fun h' => e1 (hch ▸ (hiff ch' cid).mp h')
        simp [e1, hsubs, hn]
    · have e2' : cid' ≠ cid := fun h' => e2 h'.symm
      by_cases e1 : ch' ∈ c.channels
      · simp [e1, e2, mem_chop, e2', hsubs, hiff ch' cid']
      · simp [e1, e2, hsubs, hiff ch' cid']
  · exact entries_foldl_unsubIndex cid c.channels h.subscribers hne

theorem invC1_removeClient (h : Hub) (cid : String) (hinv : InvC1 h) :
    InvC1 (removeClient h cid) := by
  unfold removeClient
  split
  · exact hinv
  · rename_i c hc
    exact invC1_remove_core h c cid hc hinv

/-- The hub states reachable from the empty hub through the transport and
protocol events: a connection opening (with a fresh id — `crypto.randomUUID`),
an inbound `sub`, an inbound `unsub`, a connection closing, and `reset`. -/
inductive Reach : Hub → Prop where
  | init : Reach Hub.empty
  | opened (h : Hub) (cid : String) (ctx : Ctx) :
      Reach h → alookup cid h.clients = none → Reach (openConn h cid ctx).1
  | sub (defs : List ChannelDef) (h : Hub) (cid ch : String) :
      Reach h → Reach (handleSubscribe defs h cid ch).1
  | unsub (h : Hub) (cid ch : String) :
      Reach h → Reach (handleUnsubscribe h cid ch)
  | close (h : Hub) (cid : String) :
      Reach h → Reach (removeClient h cid)
  | reset (h : Hub) : Reach h → Reach Hub.empty

/-- C1: every reachable hub state satisfies the Subscription Index invariant —
a connection id appears in the index entry for channel `C` exactly when `C`
is in that connection's channel set, and no entry has an empty subscriber
set; the invariant is preserved by subscribe, unsubscribe, connection close
and reset (and by connection open). -/
theorem c1_subscription_index_invariant (h : Hub) (hr : Reach h) : InvC1 h := by
  induction hr with
  | init => exact invC1_empty
  | opened h cid ctx _ hfresh ih => exact invC1_openConn h cid ctx hfresh ih
  | sub defs h cid ch _ ih => exact invC1_handleSubscribe defs h cid ch ih
  | unsub h cid ch _ ih => exact invC1_handleUnsubscribe h cid ch ih
  | close h cid _ ih => exact invC1_removeClient h cid ih
  | reset h _ _ => exact invC1_empty

/-! ## C4 — idempotent re-subscription, C5 — authorization failures -/

/-- The already-subscribed branch of `handleSubscribe`: reply `ok` at once,
touch nothing, invoke no authorization. -/
theorem handleSubscribe_already (defs : List ChannelDef) (h : Hub) (cid ch : String)
    (c : ClientConnection) (hc : alookup cid h.clients = some c)
    (hne : ch ≠ "") (hmem : ch ∈ c.channels) :
    handleSubscribe defs h cid ch = (h, [Envelope.ok ch], false) := by
  unfold handleSubscribe
  rw [hc]
  simp [hne, hmem]

/-- After any `handleSubscribe`, either the hub is unchanged or the
connection's record now holds the (nonempty) channel. -/
theorem handleSubscribe_state (defs : List ChannelDef) (h : Hub) (cid ch : String) :
    (handleSubscribe defs h cid ch).1 = h ∨
    (ch ≠ "" ∧ ∃ c', alookup cid (handleSubscribe defs h cid ch).1.clients = some c'
      ∧ ch ∈ c'.channels) := by
  unfold handleSubscribe
  split
  · exact Or.inl rfl
  · rename_i c hc
    split
    · exact Or.inl rfl
    · rename_i hne
      split
      · exact Or.inl rfl
      · split
        · exact Or.inl rfl
        · repeat' split
          all_goals
            first
            | exact Or.inl rfl
            | exact Or.inr ⟨hne, ⟨{ c with channels := sadd ch c.channels },
                by simp [alookup_mset], (mem_sadd ch ch c.channels).mpr (Or.inl rfl)⟩⟩

/-- C4: a second `sub` for a channel the connection already holds replies
`ok{channel}` immediately, does not invoke the authorization callback (the
`Bool` component is `false`), and leaves the hub — in particular the
Subscription Index — unchanged; subscribing twice yields the same state as
subscribing once, so the subscriber count agrees. -/
theorem c4_resubscribe_idempotent (defs : List ChannelDef) (h : Hub) (cid ch : String) :
    (∀ c, alookup cid h.clients = some c → ch ≠ "" → ch ∈ c.channels →
      handleSubscribe defs h cid ch = (h, [Envelope.ok ch], false)) ∧
    (handleSubscribe defs (handleSubscribe defs h cid ch).1 cid ch).1
      = (handleSubscribe defs h cid ch).1 ∧
    subscriberCount (handleSubscribe defs (handleSubscribe defs h cid ch).1 cid ch).1 ch
      = subscriberCount (handleSubscribe defs h cid ch).1 ch := by
  have hpair : (handleSubscribe defs (handleSubscribe defs h cid ch).1 cid ch).1
      = (handleSubscribe defs h cid ch).1 := by
    rcases handleSubscribe_state defs h cid ch with heq | ⟨hne, c', hc', hmem'⟩
    · rw [heq]
      exact heq
    · rw [handleSubscribe_already defs (handleSubscribe defs h cid ch).1 cid ch c' hc' hne hmem']
  exact ⟨fun c hc hne hmem => handleSubscribe_already defs h cid ch c hc hne hmem,
         hpair, by rw [hpair]⟩

/-- C5: when the matched definition has an authorization callback, a `deny`
outcome replies `err{channel, "unauthorized"}` and a throw/rejection replies
`err{channel, "authorization failed"}` — two distinct fixed reason strings —
and in both cases the hub (the connection's channel set and the Subscription
Index) is unchanged.  The handler returns normally in both cases: the
exception is consumed by the `catch`, nothing propagates. -/
theorem c5_authorization_outcomes (defs : List ChannelDef) (h : Hub) (cid ch : String)
    (c : ClientConnection) (d : ChannelDef) (params : List (String × String))
    (f : Ctx → List (String × String) → AuthOutcome)
    (hc : alookup cid h.clients = some c) (hne : ch ≠ "") (hmem : ch ∉ c.channels)
    (hm : matchChannel defs ch = some (d, params)) (hauth : d.authorize = some f) :
    (f c.ctx params = AuthOutcome.deny →
      handleSubscribe defs h cid ch = (h, [Envelope.err ch "unauthorized"], true)) ∧
    (f c.ctx params = AuthOutcome.exn →
      handleSubscribe defs h cid ch = (h, [Envelope.err ch "authorization failed"], true)) ∧
    "unauthorized" ≠ "authorization failed" := by
  refine ⟨?_, ?_, by decide⟩ <;> intro hout <;>
    (unfold handleSubscribe; rw [hc]; simp [hne, hmem, hm, hauth, hout])

/-! ## C6 — broadcast fan-out with exclusion and failure isolation -/

theorem mem_sendLoop (h : Hub) (fails : String → Bool) (env : Envelope)
    (excl : Option String) (l : List String) (cid : String) (env' : Envelope) :
    (cid, env') ∈ sendLoop h fails env excl l ↔
      env' = env ∧ cid ∈ l ∧ excl ≠ some cid ∧
      (alookup cid h.clients).isSome ∧ fails cid = false := by
  induction l with
  | nil => simp [sendLoop]
  | cons a rest ih =>
    simp only [sendLoop, List.mem_cons]
    split
    · rename_i he
      rw [ih]
      constructor
      · rintro ⟨h1, h2, h3, h4, h5⟩
        exact ⟨h1, Or.inr h2, h3, h4, h5⟩
      · rintro ⟨h1, h2 | h2, h3, h4, h5⟩
        · subst h2
          exact absurd he h3
        · exact ⟨h1, h2, h3, h4, h5⟩
    · rename_i he
      split
      · rename_i hla
        rw [ih]
        constructor
        · rintro ⟨h1, h2, h3, h4, h5⟩
          exact ⟨h1, Or.inr h2, h3, h4, h5⟩
        · rintro ⟨h1, h2 | h2, h3, h4, h5⟩
          · subst h2
            rw [hla] at h4
            cases h4
          · exact ⟨h1, h2, h3, h4, h5⟩
      · rename_i cc hla
        split
        · rename_i hf
          rw [ih]
          constructor
          · rintro ⟨h1, h2, h3, h4, h5⟩
            exact ⟨h1, Or.inr h2, h3, h4, h5⟩
          · rintro ⟨h1, h2 | h2, h3, h4, h5⟩
            · subst h2
              rw [hf] at h5
              cases h5
            · exact ⟨h1, h2, h3, h4, h5⟩
        · rename_i hf
          rw [List.mem_cons, ih]
          constructor
          · rintro (heq | ⟨h1, h2, h3, h4, h5⟩)
            · rw [Prod.ext_iff] at heq
              obtain ⟨rfl, rfl⟩ := heq
              exact ⟨rfl, Or.inl rfl, he, by simp [hla],
                Bool.eq_false_iff.mpr hf⟩
            · exact ⟨h1, Or.inr h2, h3, h4, h5⟩
          · rintro ⟨h1, h2 | h2, h3, h4, h5⟩
            · subst h2
              subst h1
              exact Or.inl rfl
            · exact Or.inr ⟨h1, h2, h3, h4, h5⟩

theorem length_sendLoop_full (h : Hub) (fails : String → Bool) (env : Envelope)
    (excl : Option String) (l : List String)
    (hlive : ∀ cid ∈ l, (alookup cid h.clients).isSome ∧ fails cid = false)
    (hex : ∀ cid ∈ l, excl ≠ some cid) :
    (sendLoop h fails env excl l).length = l.length := by
  induction l with
  | nil => simp [sendLoop]
  | cons a rest ih =>
    simp only [sendLoop]
    split
    · rename_i he
      exact absurd he (hex a (List.mem_cons_self a rest))
    · split
      · rename_i hla
        have hs := (hlive a (List.mem_cons_self a rest)).1
        rw [hla] at hs
        cases hs
      · rename_i cc hla
        split
        · rename_i hf
          have hs := (hlive a (List.mem_cons_self a rest)).2
          rw [hf] at hs
          cases hs
        · simp only [List.length_cons]
          rw [ih (fun c hc => hlive c (List.mem_cons_of_mem _ hc))
            (fun c hc => hex c (List.mem_cons_of_mem _ hc))]

theorem length_sendLoop_drop_one (h : Hub) (fails : String → Bool) (env : Envelope)
    (x : String) (l : List String) (hnd : l.Nodup) (hx : x ∈ l)
    (hlive : ∀ cid ∈ l, (alookup cid h.clients).isSome ∧ fails cid = false) :
    (sendLoop h fails env (some x) l).length = l.length - 1 := by
  induction l with
  | nil => simp at hx
  | cons a rest ih =>
    simp only [sendLoop]
    by_cases hax : x = a
    · subst hax
      rw [if_pos rfl]
      have hnotin : x ∉ rest := (List.nodup_cons.mp hnd).1
      simp only [List.length_cons, Nat.add_sub_cancel]
      exact length_sendLoop_full h fails env (some x) rest
        (fun c hc => hlive c (List.mem_cons_of_mem _ hc))
        (fun c hc heq => hnotin (by
          injection heq with h'
          rw [h']
          exact hc))
    · have hxr : x ∈ rest := by
        rcases List.mem_cons.mp hx with h' | h'
        · exact absurd h' hax
        · exact h'
      have hne : (some x : Option String) ≠ some a := by
        intro heq
        injection heq with h'
        exact hax h'
      rw [if_neg hne]
      split
      · rename_i hla
        have hs := (hlive a (List.mem_cons_self a rest)).1
        rw [hla] at hs
        cases hs
      · rename_i cc hla
        split
        · rename_i hf
          have hs := (hlive a (List.mem_cons_self a rest)).2
          rw [hf] at hs
          cases hs
        · have hrest := ih (List.nodup_cons.mp hnd).2 hxr
            (fun c hc => hlive c (List.mem_cons_of_mem _ hc))
          have hlen : 1 ≤ rest.length := List.length_pos.mpr (List.ne_nil_of_mem hxr)
          simp only [List.length_cons]
          rw [hrest]
          omega

/-- C6: broadcasting `msg{channel, event, data}` with one excluded id is a
no-op when the channel has no subscriber entry; otherwise it writes the one
envelope to exactly the subscribers that are not excluded, still connected,
and whose transport write does not fail — a failing write is swallowed and
never prevents the writes to the remaining subscribers (membership of each
subscriber in the delivered list depends only on that subscriber's own
transport) — and with one excluded subscriber present and no failures it
reaches exactly N−1 transports. -/
theorem c6_broadcast_fanout (h : Hub) (fails : String → Bool)
    (ch ev d : String) (excl : Option String) :
    (alookup ch h.subscribers = none → broadcastToChannel h fails ch ev d excl = []) ∧
    (∀ subs, alookup ch h.subscribers = some subs →
      ∀ cid env, ((cid, env) ∈ broadcastToChannel h fails ch ev d excl ↔
        env = Envelope.msg ch ev d ∧ cid ∈ subs ∧ excl ≠ some cid ∧
        (alookup cid h.clients).isSome ∧ fails cid = false)) ∧
    (∀ subs x, alookup ch h.subscribers = some subs → subs.Nodup → x ∈ subs →
      (∀ cid ∈ subs, (alookup cid h.clients).isSome ∧ fails cid = false) →
      (broadcastToChannel h fails ch ev d (some x)).length = subs.length - 1) := by
  refine ⟨?_, ?_, ?_⟩
  · intro hnone
    unfold broadcastToChannel
    rw [hnone]
  · intro subs hsubs cid env
    unfold broadcastToChannel
    rw [hsubs]
    by_cases hemp : subs.isEmpty
    · rw [List.isEmpty_iff] at hemp
      subst hemp
      simp
    · simp only [hemp, Bool.false_eq_true, if_false]
      exact mem_sendLoop h fails (Envelope.msg ch ev d) excl subs cid env
  · intro subs x hsubs hnd hx hlive
    unfold broadcastToChannel
    rw [hsubs]
    have hemp : ¬ subs.isEmpty := by
      rw [List.isEmpty_iff]
      exact List.ne_nil_of_mem hx
    simp only [hemp, Bool.false_eq_true, if_false]
    exact length_sendLoop_drop_one h fails (Envelope.msg ch ev d) x subs hnd hx hlive

/-! ## C10 — handler context carries the sender's id -/

/-- C10: whenever the router dispatches an inbound `msg{channel, event, data}`
to a registered handler, the context passed to the handler carries the
sending connection's id in its `clientId` property (assigned before the
handler is invoked), on top of that connection's own request context. -/
theorem c10_handler_gets_clientId (defs : List ChannelDef) (h : Hub)
    (cid ch ev dt : String) (inv : Invocation)
    (hm : handleMessage defs h cid ch ev dt = some inv) :
    inv.ctx.clientId = some cid ∧
    ∃ c, alookup cid h.clients = some c ∧ inv.ctx.base = c.ctx.base := by
  unfold handleMessage at hm
  split at hm
  · cases hm
  · rename_i c hc
    split at hm
    · cases hm
    · split at hm
      · cases hm
      · split at hm
        · cases hm
        · rename_i d params hmm
          split at hm
          · rw [Option.some.injEq] at hm
            subst hm
            exact ⟨rfl, c, hc, rfl⟩
          · cases hm

/-! ## Client model (`Broadcast`, `Subscription` from `client.ts`)

The client's state: connection flag (standing for both `_connected` and the
socket's `readyState === OPEN` — the source checks them together), assigned
id, reconnection bookkeeping, the subscriptions map (channel ↦ that
`Subscription`'s listener set, as (event, listener-token) pairs) in insertion
order, and the outbound queue of frames stringified while disconnected.
`close()` sets the attempt counter to `Infinity` in the source; the
`closedPermanently` flag stands for that sentinel. -/

/-- A client-to-server wire frame. -/
inductive CFrame where
  | sub (c : String)
  | unsub (c : String)
  | msg (c e d : String)
  | pong
deriving DecidableEq, Repr

/-- A client-side lifecycle event handed to `emit`. -/
inductive Emit where
  | connected
  | disconnected
  | reconnecting (attempt : Nat)
  | subscribed (c : String)
  | errorEvent (c r : String)
deriving DecidableEq, Repr

structure Broadcast where
  connected : Bool
  clientId : Option String
  reconnectAttempt : Nat
  maxReconnectAttempts : Option Nat
  closedPermanently : Bool
  subscriptions : List (String × List (String × Nat))
  queue : List CFrame
deriving DecidableEq, Repr

/-- A fresh client (`new Broadcast()` before the socket opens): not yet
connected, no id, zero attempts, unbounded retries, nothing subscribed or
queued. -/
def Broadcast.init : Broadcast :=
  { connected := false, clientId := none, reconnectAttempt := 0,
    maxReconnectAttempts := none, closedPermanently := false,
    subscriptions := [], queue := [] }

/-- `Broadcast.send` (private): transmit when connected with an open socket,
else push onto the queue.  Returns the new state and the frames that went out
on the wire. -/
def Broadcast.send (s : Broadcast) (f : CFrame) : Broadcast × List CFrame :=
  if s.connected then (s, [f]) else ({ s with queue := s.queue ++ [f] }, [])

/-- `Broadcast.rawSend`: transmit only when the socket is open, never queue. -/
def Broadcast.rawSend (s : Broadcast) (f : CFrame) : List CFrame :=
  if s.connected then [f] else []

/-- `Broadcast.subscribe`: return the existing subscription if present, else
record the channel (insertion order — `Map.set` appends) and, when connected,
send the `sub` frame at once (via `rawSend`; nothing is queued when not). -/
def Broadcast.subscribe (s : Broadcast) (channel : String) : Broadcast × List CFrame :=
  match alookup channel s.subscriptions with
  | some _ => (s, [])
  | none =>
    ({ s with subscriptions := s.subscriptions ++ [(channel, [])] },
     Broadcast.rawSend s (CFrame.sub channel))

/-- `Subscription.leave`: send `unsub` through `Broadcast.send` (so it is
queued while disconnected), clear the listener set, and delete the channel
from the subscriptions map (the replay set). -/
def Broadcast.leave (s : Broadcast) (channel : String) : Broadcast × List CFrame :=
  let r := Broadcast.send s (CFrame.unsub channel)
  ({ r.1 with subscriptions := mdel channel r.1.subscriptions }, r.2)

/-- `ws.onopen`: mark connected, reset the attempt counter, emit `connected`. -/
def Broadcast.handleOpen (s : Broadcast) : Broadcast × List Emit :=
  ({ s with connected := true, reconnectAttempt := 0 }, [Emit.connected])

/-- `Broadcast.handleMessage`: the client's dispatch over an inbound envelope.
Returns the new state, the frames sent, and the events emitted.  The `msg`
arm only dispatches to the channel's local listeners (no state change, no
wire traffic); `ping` answers `pong` via `rawSend`. -/
def Broadcast.handleMessage (s : Broadcast) (env : Envelope) :
    Broadcast × List CFrame × List Emit :=
  match env with
  | Envelope.welcome id =>
    let resubs := s.subscriptions.foldl
      (fun acc p => acc ++ Broadcast.rawSend s (CFrame.sub p.1)) []
    ({ s with clientId := some id, queue := [] }, resubs ++ s.queue, [])
  | Envelope.ok c => (s, [], [Emit.subscribed c])
  | Envelope.err c r => (s, [], [Emit.errorEvent c r])
  | Envelope.msg _ _ _ => (s, [], [])
  | Envelope.ping => (s, Broadcast.rawSend s CFrame.pong, [])

/-- `scheduleReconnect`: give up past the attempt cap (or after `close()` set
the counter to `Infinity`), else increment the counter first, emit
`reconnecting{attempt}`, and schedule the retry after
`min(1000 * 2^(attempt-1), 30000)` ms.  `some (delay, n)` reports the
scheduled delay and the emitted attempt number. -/
def Broadcast.scheduleReconnect (s : Broadcast) : Broadcast × Option (Nat × Nat) :=
  if s.closedPermanently then (s, none)
  else
    match s.maxReconnectAttempts with
    | some m =>
      if s.reconnectAttempt ≥ m then (s, none)
      else
        ({ s with reconnectAttempt := s.reconnectAttempt + 1 },
         some (min (1000 * 2 ^ s.reconnectAttempt) 30000, s.reconnectAttempt + 1))
    | none =>
      ({ s with reconnectAttempt := s.reconnectAttempt + 1 },
       some (min (1000 * 2 ^ s.reconnectAttempt) 30000, s.reconnectAttempt + 1))

/-- `ws.onclose`: drop the connected flag, emit `disconnected` if it was up,
then try to schedule a reconnect. -/
def Broadcast.handleClose (s : Broadcast) : Broadcast × List Emit × Option Nat :=
  let wasConnected := s.connected
  let s1 := { s with connected := false }
  let r := Broadcast.scheduleReconnect s1
  (r.1,
   (if wasConnected then [Emit.disconnected] else [])
     ++ (match r.2 with
         | some (_, n) => [Emit.reconnecting n]
         | none => []),
   r.2.map (fun p => p.1))

/-- The delays of `k` consecutive reconnect schedulings (a fake-clock run of
the backoff loop). -/
def backoffDelays : Nat → Broadcast → List Nat
  | 0, _ => []
  | k + 1, s =>
    match Broadcast.scheduleReconnect s with
    | (s', some (d, _)) => d :: backoffDelays k s'
    | (_, none) => []

/-! ## C7 — reconnection backoff -/

/-- C7: when a reconnect is actually scheduled (not permanently closed, cap
not reached), the attempt counter is incremented first — to `n` — the
`reconnecting{n}` event is emitted at schedule time, and the scheduled delay
is `min(1000 * 2^(n-1), 30000)` ms; six consecutive schedulings from a fresh
client yield the delays 1000, 2000, 4000, 8000, 16000, 30000. -/
theorem c7_backoff (s : Broadcast) (n : Nat)
    (hclosed : s.closedPermanently = false)
    (hmax : ∀ m, s.maxReconnectAttempts = some m → s.reconnectAttempt < m)
    (hn : s.reconnectAttempt + 1 = n) :
    Broadcast.scheduleReconnect s
      = ({ s with reconnectAttempt := n },
         some (min (1000 * 2 ^ (n - 1)) 30000, n)) ∧
    backoffDelays 6 Broadcast.init = [1000, 2000, 4000, 8000, 16000, 30000] := by
  constructor
  · subst hn
    unfold Broadcast.scheduleReconnect
    rw [if_neg (by simp [hclosed])]
    split
    · rename_i m hm
      rw [if_neg (Nat.not_le.mpr (hmax m hm))]
      simp
    · simp
  · decide

/-! ## C8 — reconnection replay and queue flush -/

theorem foldl_rawSend_sub (s : Broadcast) (hconn : s.connected = true)
    (l : List (String × List (String × Nat))) (acc : List CFrame) :
    l.foldl (fun acc p => acc ++ Broadcast.rawSend s (CFrame.sub p.1)) acc
      = acc ++ l.map (fun p => CFrame.sub p.1) := by
  induction l generalizing acc with
  | nil => simp
  | cons p rest ih =>
    rw [List.foldl_cons, ih]
    simp [Broadcast.rawSend, hconn]

/-- C8: on transport open the client emits `connected` and resets the attempt
counter to zero; on the following `welcome` it re-sends one `sub` frame per
held channel, in the subscriptions map's insertion order (which is the order
the channels were first subscribed, since `subscribe` appends new channels at
the end), and only then flushes the whole queue in FIFO order, leaving the
queue empty — no queued frame is dropped, and the subscription set survives
the reconnect. -/
theorem c8_reconnect_replay (s : Broadcast) (id ch : String) :
    (Broadcast.handleOpen s).2 = [Emit.connected] ∧
    (Broadcast.handleOpen s).1.reconnectAttempt = 0 ∧
    (Broadcast.handleOpen s).1.connected = true ∧
    (Broadcast.handleMessage (Broadcast.handleOpen s).1 (Envelope.welcome id)).2.1
      = s.subscriptions.map (fun p => CFrame.sub p.1) ++ s.queue ∧
    (Broadcast.handleMessage (Broadcast.handleOpen s).1 (Envelope.welcome id)).1.queue
      = [] ∧
    (Broadcast.handleMessage (Broadcast.handleOpen s).1 (Envelope.welcome id)).1.subscriptions
      = s.subscriptions ∧
    (Broadcast.subscribe s ch).1.subscriptions.map Prod.fst
      = (if (alookup ch s.subscriptions).isSome then s.subscriptions.map Prod.fst
         else s.subscriptions.map Prod.fst ++ [ch]) := by
  refine ⟨rfl, rfl, rfl, ?_, rfl, rfl, ?_⟩
  · show ((Broadcast.handleOpen s).1.subscriptions.foldl
        (fun acc p => acc ++ Broadcast.rawSend (Broadcast.handleOpen s).1 (CFrame.sub p.1)) [])
        ++ (Broadcast.handleOpen s).1.queue
      = s.subscriptions.map (fun p => CFrame.sub p.1) ++ s.queue
    rw [foldl_rawSend_sub (Broadcast.handleOpen s).1 rfl]
    simp [Broadcast.handleOpen]
  · unfold Broadcast.subscribe
    split
    · rename_i v hv
      rw [hv]
      simp
    · rename_i hv
      rw [hv]
      simp

/-! ## C9 — leaving a channel -/

/-- C9 (amended): `leave()` removes the channel's subscription record —
clearing its listener set and removing it from the replay set, so it is not
re-subscribed after a reconnect.  When connected the `unsub` frame is sent
immediately and nothing is queued; when disconnected the frame is not
dropped: `leave` routes it through `send`, which appends it to the outbound
queue, and the queue is flushed (after the re-subscriptions) once the client
reconnects and receives `welcome`. -/
theorem c9_leave_channel (s : Broadcast) (ch : String) :
    alookup ch (Broadcast.leave s ch).1.subscriptions = none ∧
    (s.connected = true →
      Broadcast.leave s ch
        = ({ s with subscriptions := mdel ch s.subscriptions }, [CFrame.unsub ch])) ∧
    (s.connected = false →
      (Broadcast.leave s ch).2 = [] ∧
      (Broadcast.leave s ch).1.queue = s.queue ++ [CFrame.unsub ch] ∧
      CFrame.unsub ch ∈
        (Broadcast.handleMessage (Broadcast.handleOpen (Broadcast.leave s ch).1).1
          (Envelope.welcome "x")).2.1) := by
  refine ⟨?_, ?_, ?_⟩
  · by_cases hconn : s.connected
    · simp [Broadcast.leave, Broadcast.send, hconn, alookup_mdel]
    · simp [Broadcast.leave, Broadcast.send, hconn, alookup_mdel]
  · intro hconn
    simp [Broadcast.leave, Broadcast.send, hconn]
  · intro hconn
    refine ⟨?_, ?_, ?_⟩
    · simp [Broadcast.leave, Broadcast.send, hconn]
    · simp [Broadcast.leave, Broadcast.send, hconn]
    · simp [Broadcast.leave, Broadcast.send, hconn, Broadcast.handleOpen,
        Broadcast.handleMessage, List.mem_append]

/-- A disconnected client holding one subscription to `chat/1` with an empty
queue — the state right before `leave("chat/1")` is called while offline. -/
def leftClient : Broadcast :=
  { connected := false, clientId := some "c0", reconnectAttempt := 1,
    maxReconnectAttempts := none, closedPermanently := false,
    subscriptions := [("chat/1", [])], queue := [] }

/-- C9's claim, as stated, is false on the code: it says an `unsub` issued
while disconnected is dropped silently and never transmitted, even after
reconnection.  But `leave` routes the frame through `send`, which queues it
while disconnected, and the welcome handler flushes the queue — so after the
client reconnects the `unsub` frame for the left channel IS transmitted. -/
theorem c9_unsub_transmitted_after_reconnect :
    CFrame.unsub "chat/1" ∈
      (Broadcast.handleMessage
        (Broadcast.handleOpen (Broadcast.leave leftClient "chat/1").1).1
        (Envelope.welcome "c1")).2.1 := by decide

/-! ## Concrete instances and witnesses -/

/-- What `BroadcastManager.channel("news")` registers. -/
def newsDef : ChannelDef :=
  { pattern := "news", tokens := (parsePattern "news").1,
    paramNames := (parsePattern "news").2 }

/-- A hub reached by opening connection `c1` and subscribing it to `news`. -/
def hubReached : Hub :=
  (handleSubscribe [newsDef] (openConn Hub.empty "c1" { base := "req" }).1 "c1" "news").1

theorem c1_witness : InvC1 hubReached :=
  c1_subscription_index_invariant hubReached
    (Reach.sub [newsDef] (openConn Hub.empty "c1" { base := "req" }).1 "c1" "news"
      (Reach.opened Hub.empty "c1" { base := "req" } Reach.init rfl))

/-- What `BroadcastManager.channel("chats/:id", authorize)` registers with a
callback that denies every request. -/
def denyDef : ChannelDef :=
  { pattern := "chats/:id", tokens := (parsePattern "chats/:id").1,
    paramNames := (parsePattern "chats/:id").2,
    authorize := some (fun _ _ => AuthOutcome.deny) }

/-- A hub with one live connection `c1` not subscribed to anything. -/
def hubDeny : Hub :=
  { clients := [("c1", { channels := [], ctx := { base := "req" } })], subscribers := [] }

theorem c5_witness :
    handleSubscribe [denyDef] hubDeny "c1" "chats/7"
      = (hubDeny, [Envelope.err "chats/7" "unauthorized"], true) :=
  (c5_authorization_outcomes [denyDef] hubDeny "c1" "chats/7"
    { channels := [], ctx := { base := "req" } } denyDef [("id", "7")]
    (fun _ _ => AuthOutcome.deny) rfl (by decide) (by decide) rfl rfl).1 rfl

theorem c7_witness :
    Broadcast.scheduleReconnect Broadcast.init
      = ({ Broadcast.init with reconnectAttempt := 1 },
         some (min (1000 * 2 ^ (1 - 1)) 30000, 1)) ∧
    backoffDelays 6 Broadcast.init = [1000, 2000, 4000, 8000, 16000, 30000] :=
  c7_backoff Broadcast.init 1 rfl (fun _ hm => Option.noConfusion hm) rfl

/-- What `BroadcastManager.channel("chat/:id", { messages: { send } })`
registers. -/
def chatDef : ChannelDef :=
  { pattern := "chat/:id", tokens := (parsePattern "chat/:id").1,
    paramNames := (parsePattern "chat/:id").2,
    messages := ["send"] }

/-- A hub with one live connection `c9` subscribed to `chat/7`. -/
def hubChat : Hub :=
  { clients := [("c9", { channels := ["chat/7"], ctx := { base := "req9" } })],
    subscribers := [("chat/7", ["c9"])] }

/-- The handler invocation the router produces for `msg{chat/7, send, hello}`
from `c9`. -/
def chatInvocation : Invocation :=
  { ctx := { base := "req9", clientId := some "c9" }, params := [("id", "7")],
    event := "send", data := "hello" }

theorem c10_witness :
    chatInvocation.ctx.clientId = some "c9" ∧
    ∃ c, alookup "c9" hubChat.clients = some c ∧ chatInvocation.ctx.base = c.ctx.base :=
  c10_handler_gets_clientId [chatDef] hubChat "c9" "chat/7" "send" "hello"
    chatInvocation rfl
